import Mathlib

/-!
Shallow embedding of the STM32U5 flash controller driver
(`embassy-stm32/src/flash/u5.rs`).

The driver manipulates memory-mapped flash controller registers: a control
register (lock bit, program-enable `pg`, erase-enable `per` with its target
fields `pnb`/`bker`, start bit `strt`), a key register, and a status register
(busy flag `bsy` plus five sticky error flags).  We embed the non-secure
register alias; the `trustzone-secure` alias is textually identical modulo
register names, as the specification notes.

The hardware is modelled as an explicit state:
  * `cr` — the stored control-register value, updated by the driver's
    read-modify-write (`modify`) and whole-register (`write`) accesses;
  * `srReads` — the sequence of status-register values the hardware will
    return on successive reads (the status register is hardware-driven, so
    its reads are an input trace; once the trace is exhausted reads return
    the idle value);
  * `keyStage` — hardware key-sequence state for the unlock protocol;
  * `events` — a chronological log of every register/memory access the
    driver performs, used to state ordering and frame properties.
-/

namespace FlashU5

/-- Modelled from the spec: the `Error` enum lives in `flash/mod.rs`, which is
not part of the available source; the spec fixes its closed set of outcomes as
`Busy`, `Seq`, `Size`, `Unaligned`, `Protected`, `Prog`. -/
inductive Error where
  | Busy
  | Seq
  | Size
  | Unaligned
  | Protected
  | Prog
deriving DecidableEq, Repr

/-- Modelled from the spec: `FlashBank` is declared in the flash module root,
not in the available source.  It enumerates `Bank1`, `Bank2`, and a third
variant that the driver's bank-selection match tags `unreachable!`; its name
is unknown here, so it is called `BankOther`. -/
inductive FlashBank where
  | Bank1
  | Bank2
  | BankOther
deriving DecidableEq, Repr

/-- Modelled from the spec: `FlashSector` is declared in the flash module
root, not in the available source; the spec describes it as a bank plus an
in-bank index. -/
structure FlashSector where
  bank : FlashBank
  index_in_bank : Nat
deriving DecidableEq, Repr

/-- Status register value: busy flag and the five sticky error flags read by
`status()`. -/
structure Sr where
  bsy : Bool
  pgserr : Bool
  sizerr : Bool
  pgaerr : Bool
  wrperr : Bool
  progerr : Bool
deriving DecidableEq, Repr

/-- The idle status-register value: not busy, no error flags. -/
def idleSr : Sr :=
  { bsy := false, pgserr := false, sizerr := false, pgaerr := false,
    wrperr := false, progerr := false }

/-- Control register fields touched by the driver. -/
structure Cr where
  lock : Bool
  pg : Bool
  per : Bool
  pnb : Nat
  bker : Bool
  strt : Bool
deriving DecidableEq, Repr

/-- The register default that a whole-register `write(|w| ...)` access starts
from (the PAC initialises the written value to all-zero before applying the
closure). -/
def crDefault : Cr :=
  { lock := false, pg := false, per := false, pnb := 0, bker := false,
    strt := false }

/-- One observable hardware access performed by the driver, in program order.
`evWriteCr` is a whole-register write (value built from `crDefault`);
`evModifyCr` is a read-modify-write.  `evModifySr` is the identity
read-modify-write of the status register used by `clear_all_err` (its bits
are write-1-to-clear).  `evMemWrite`/`evFence` are the raw word writes and
`SeqCst` fences of the programming path. -/
inductive Event where
  | evReadSr (sr : Sr)
  | evWriteKey (v : Nat)
  | evWriteCr (c : Cr)
  | evModifyCr (c : Cr)
  | evModifySr
  | evMemWrite (addr : Nat) (word : Nat)
  | evFence
deriving DecidableEq, Repr

/-- The modelled hardware state threaded through every driver operation. -/
structure FlashState where
  cr : Cr
  keyStage : Bool
  srReads : List Sr
  events : List Event
deriving DecidableEq, Repr

/-- A read-modify-write of the control register (`pac::FLASH.nscr().modify`). -/
def modifyCr (s : FlashState) (f : Cr → Cr) : FlashState :=
  { s with cr := f s.cr, events := s.events ++ [Event.evModifyCr (f s.cr)] }

/-- A whole-register write of the control register (`pac::FLASH.nscr().write`):
the written value starts from the register default, not from the current
value. -/
def writeCr (s : FlashState) (f : Cr → Cr) : FlashState :=
  { s with cr := f crDefault, events := s.events ++ [Event.evWriteCr (f crDefault)] }

/-- First unlock key constant written by `unlock()` (`0x4567_0123`). -/
def KEY1 : Nat := 0x45670123

/-- Second unlock key constant written by `unlock()` (`0xCDEF_89AB`). -/
def KEY2 : Nat := 0xCDEF89AB

instance {ε α : Type} [DecidableEq ε] [DecidableEq α] : DecidableEq (Except ε α) :=
  fun x y =>
    match x, y with
    | Except.ok a, Except.ok b =>
      if h : a = b then isTrue (by rw [h])
      else isFalse (fun hc => h (Except.ok.inj hc))
    | Except.ok _, Except.error _ => isFalse (fun hc => Except.noConfusion hc)
    | Except.error _, Except.ok _ => isFalse (fun hc => Except.noConfusion hc)
    | Except.error e, Except.error f =>
      if h : e = f then isTrue (by rw [h])
      else isFalse (fun hc => h (Except.error.inj hc))

/-- A write to the key register (`pac::FLASH.nskeyr().write_value`).

Modelled from the spec: the hardware side of the key protocol is not driver
code — "writes two fixed 32-bit key constants ... in that order to the key
register, which hardware interprets as a single unlock sequence".  Writing
`KEY1` arms the sequence; writing `KEY2` immediately afterwards clears the
lock bit; any other value disarms it. -/
def writeKey (s : FlashState) (v : Nat) : FlashState :=
  let s' := { s with events := s.events ++ [Event.evWriteKey v] }
  if v = KEY1 then
    { s' with keyStage := true }
  else if s'.keyStage ∧ v = KEY2 then
    { s' with keyStage := false, cr := { s'.cr with lock := false } }
  else
    { s' with keyStage := false }

/-- `lock()`: read-modify-write setting the lock bit. -/
def lock (s : FlashState) : FlashState :=
  modifyCr s (fun w => { w with lock := true })

/-- `unlock()`: reads the lock bit; if set, writes the two key constants in
order; otherwise performs no register write. -/
def unlock (s : FlashState) : FlashState :=
  if s.cr.lock then
    writeKey (writeKey s KEY1) KEY2
  else
    s

/-- `enable_write()`: asserts `WRITE_SIZE % 4 == 0` before any register
access, then whole-register-writes the control register with the
program-enable bit set.  `WRITE_SIZE` is a build-time constant defined
outside the available source, so it is a parameter here; a failed assertion
is a panic, modelled as `none`. -/
def enable_write (writeSize : Nat) (s : FlashState) : Option FlashState :=
  if writeSize % 4 = 0 then
    some (writeCr s (fun w => { w with pg := true }))
  else
    none

/-- `disable_write()`: whole-register write clearing the program-enable bit
(so every other control-register field is written at its default). -/
def disable_write (s : FlashState) : FlashState :=
  writeCr s (fun w => { w with pg := false })

/-- `u32::from_le_bytes` on one 4-byte chunk. -/
def u32_from_le_bytes (b0 b1 b2 b3 : Nat) : Nat :=
  b0 + 256 * b1 + 65536 * b2 + 16777216 * b3

/-- The loop body of `write()`: iterate over `buf.chunks(4)`, for each chunk
emit a volatile word write of its little-endian value at the current address,
advance the address by the chunk length (u32 arithmetic, mod `2^32`), and
emit a `SeqCst` fence.  A final chunk shorter than 4 bytes makes
`unwrap!(val.try_into())` panic, modelled as `none`. -/
def writeLoop : Nat → List Nat → Option (List Event)
  | _, [] => some []
  | address, b0 :: b1 :: b2 :: b3 :: rest =>
    (writeLoop ((address + 4) % 4294967296) rest).map (fun evs =>
      Event.evMemWrite address (u32_from_le_bytes b0 b1 b2 b3) ::
      Event.evFence :: evs)
  | _, _ :: _ => none

/-- `write(start_address, buf)`: performs the word-write/fence loop and
returns `Ok(())`.  The buffer is the `WRITE_SIZE`-byte array as a byte
list. -/
def write (start_address : Nat) (buf : List Nat) (s : FlashState) :
    Option (Except Error Unit × FlashState) :=
  (writeLoop start_address buf).map (fun evs =>
    (Except.ok (), { s with events := s.events ++ evs }))

/-- The pure status-register decode performed by `status()`: busy wins, then
the error flags are checked by early return in the fixed order
`pgserr`, `sizerr`, `pgaerr`, `wrperr`, `progerr`. -/
def status_decode (sr : Sr) : Except Error Bool :=
  if sr.bsy then
    Except.ok true
  else if sr.pgserr then
    Except.error Error.Seq
  else if sr.sizerr then
    Except.error Error.Size
  else if sr.pgaerr then
    Except.error Error.Unaligned
  else if sr.wrperr then
    Except.error Error.Protected
  else if sr.progerr then
    Except.error Error.Prog
  else
    Except.ok false

/-- A status-register read: consumes the head of the hardware-driven read
trace (idle once the trace is exhausted) and logs the read. -/
def readSr (s : FlashState) : Sr × FlashState :=
  match s.srReads with
  | [] => (idleSr, { s with events := s.events ++ [Event.evReadSr idleSr] })
  | sr :: rest =>
    (sr, { s with srReads := rest, events := s.events ++ [Event.evReadSr sr] })

/-- `status()`: reads the status register and decodes it. -/
def status (s : FlashState) : Except Error Bool × FlashState :=
  (status_decode (readSr s).1, (readSr s).2)

/-- `clear_all_err()`: identity read-modify-write of the status register,
clearing every write-1-to-clear sticky error bit. -/
def clear_all_err (s : FlashState) : FlashState :=
  { s with events := s.events ++ [Event.evModifySr] }

/-- The loop of `blocking_wait_ready()`, by structural recursion on the
pending status-read trace (always invoked with the state's own `srReads`,
which each iteration keeps in sync): each iteration performs one `status()`
read — a busy result continues the loop, an error propagates, and not-busy
exits with `Ok(())`.  An exhausted trace reads as idle
(`status_decode idleSr = Except.ok false`), ending the loop after that final
read. -/
def bwrGo : List Sr → FlashState → Except Error Unit × FlashState
  | [], s =>
    (Except.ok (), { s with events := s.events ++ [Event.evReadSr idleSr] })
  | sr :: rest, s =>
    let s' := { s with srReads := rest,
                       events := s.events ++ [Event.evReadSr sr] }
    match status_decode sr with
    | Except.error e => (Except.error e, s')
    | Except.ok true => bwrGo rest s'
    | Except.ok false => (Except.ok (), s')

/-- `blocking_wait_ready()`: `while status()? { continue }` — polls `status()`
until it reports not-busy (`Ok(())`) or an error propagates. -/
def blocking_wait_ready (s : FlashState) : Except Error Unit × FlashState :=
  bwrGo s.srReads s

/-- `blocking_write(start_address, buf)`: `write(start_address, buf)?` then
`blocking_wait_ready()` (the `?` never propagates since `write` always
returns `Ok(())`; a panic inside `write` is `none`). -/
def blocking_write (start_address : Nat) (buf : List Nat) (s : FlashState) :
    Option (Except Error Unit × FlashState) :=
  (write start_address buf s).map (fun p => blocking_wait_ready p.2)

/-- The bank selector written to `BKER`: `false` for `Bank1`, `true` for
`Bank2`; the third variant hits `unreachable!` (a panic, modelled `none`). -/
def bkerOf : FlashBank → Option Bool
  | FlashBank.Bank1 => some false
  | FlashBank.Bank2 => some true
  | FlashBank.BankOther => none

/-- `begin_erase_sector(sector)`: one read-modify-write setting `PER`, the
page number `PNB` and the bank selector `BKER` together, then a second,
separate read-modify-write setting the start bit `STRT`. -/
def begin_erase_sector (sector : FlashSector) (s : FlashState) :
    Option FlashState :=
  match bkerOf sector.bank with
  | none => none
  | some bk =>
    let s₁ := modifyCr s (fun w =>
      { w with per := true, pnb := sector.index_in_bank, bker := bk })
    some (modifyCr s₁ (fun w => { w with strt := true }))

/-- `end_erase()`: reads status; if still busy returns `Err(Busy)`
immediately; otherwise clears `PER`, clears the sticky error flags,
re-locks, and returns the decoded status with its `Ok` payload dropped. -/
def end_erase (s : FlashState) : Except Error Unit × FlashState :=
  let result := (status s).1
  let s₁ := (status s).2
  if result = Except.ok true then
    (Except.error Error.Busy, s₁)
  else
    let s₂ := modifyCr s₁ (fun w => { w with per := false })
    let s₃ := clear_all_err s₂
    let s₄ := lock s₃
    (Except.map (fun _ => ()) result, s₄)

/-- `blocking_erase_sector(sector)`: `begin_erase_sector`, wait for
completion discarding that result, then `end_erase` for the authoritative
result. -/
def blocking_erase_sector (sector : FlashSector) (s : FlashState) :
    Option (Except Error Unit × FlashState) :=
  (begin_erase_sector sector s).map (fun s₁ =>
    end_erase (blocking_wait_ready s₁).2)

/-- `complete_operation()`: reads status; if busy returns `Err(Busy)`;
otherwise clears sticky errors, reads the control register, disables
whichever of `PG`/`PER` is active (`disable_write` when `PG` is set, a
read-modify-write clearing `PER` otherwise), locks, and returns the decoded
status. -/
def complete_operation (s : FlashState) : Except Error Unit × FlashState :=
  let result := (status s).1
  let s₁ := (status s).2
  if result = Except.ok true then
    (Except.error Error.Busy, s₁)
  else
    let s₂ := clear_all_err s₁
    let s₃ := if s₂.cr.pg then
        disable_write s₂
      else
        modifyCr s₂ (fun w => { w with per := false })
    let s₄ := lock s₃
    (Except.map (fun _ => ()) result, s₄)

/-! ### Specification-side formulations used to state the claims -/

/-- The five sticky error flags of a status value paired with the `Error`
each one decodes to, listed in the spec's fixed priority order
`Seq > Size > Unaligned > Protected > Prog`. -/
def errorFlags (sr : Sr) : List (Bool × Error) :=
  [(sr.pgserr, Error.Seq), (sr.sizerr, Error.Size), (sr.pgaerr, Error.Unaligned),
   (sr.wrperr, Error.Protected), (sr.progerr, Error.Prog)]

/-- The spec's wording of the status decode: busy returns `Ok(true)`;
otherwise the first set flag in the fixed priority order is reported;
otherwise `Ok(false)`. -/
def statusSpec (sr : Sr) : Except Error Bool :=
  if sr.bsy then
    Except.ok true
  else
    match (errorFlags sr).find? (fun p => p.1) with
    | some p => Except.error p.2
    | none => Except.ok false

/-- The successive little-endian 32-bit words of a byte buffer, one per
4-byte chunk. -/
def leWords : List Nat → List Nat
  | b0 :: b1 :: b2 :: b3 :: rest => u32_from_le_bytes b0 b1 b2 b3 :: leWords rest
  | _ => []

/-- The spec's wording of the programming loop's observable accesses: the
`i`-th word is written at `addr + 4 * i` (u32 arithmetic), each word write
followed by a fence before the next begins. -/
def wordWriteEvents (addr : Nat) (ws : List Nat) : List Event :=
  (List.range ws.length).flatMap (fun i =>
    [Event.evMemWrite ((addr + 4 * i) % 4294967296) (ws.getD i 0), Event.evFence])

/-- Whether an event is a status-register read. -/
def isSrRead : Event → Bool
  | Event.evReadSr _ => true
  | _ => false

/-- Number of status-register reads in an event log. -/
def countReads (evs : List Event) : Nat :=
  (evs.filter isSrRead).length

/-- A status value whose busy flag is set (error flags clear). -/
def busySr : Sr := { idleSr with bsy := true }

/-! ### Helper lemmas -/

lemma modifyCr_cr (s : FlashState) (f : Cr → Cr) : (modifyCr s f).cr = f s.cr := rfl

lemma lock_cr (s : FlashState) : (lock s).cr = { s.cr with lock := true } := rfl

lemma clear_all_err_cr (s : FlashState) : (clear_all_err s).cr = s.cr := rfl

lemma readSr_snd_cr (s : FlashState) : (readSr s).2.cr = s.cr := by
  unfold readSr
  cases s.srReads <;> rfl

lemma status_snd_cr (s : FlashState) : (status s).2.cr = s.cr := by
  unfold status
  exact readSr_snd_cr s

lemma status_decode_ne_busy (sr : Sr) :
    status_decode sr ≠ Except.error Error.Busy := by
  unfold status_decode
  rcases sr with ⟨b, p1, p2, p3, p4, p5⟩
  cases b <;> cases p1 <;> cases p2 <;> cases p3 <;> cases p4 <;> cases p5 <;> decide

lemma status_decode_busy (sr : Sr) (h : sr.bsy = true) :
    status_decode sr = Except.ok true := by
  unfold status_decode
  rw [h]
  rfl

lemma countReads_append (xs ys : List Event) :
    countReads (xs ++ ys) = countReads xs + countReads ys := by
  unfold countReads
  rw [List.filter_append, List.length_append]

/-! ### Claims -/

/-- C1: for every status-register value, if `BSY` is set `status()` decodes
to `Ok(true)`; if `BSY` is clear it decodes to the error of the first set
flag in the fixed priority order `Seq > Size > Unaligned > Protected > Prog`
even when several flags are set simultaneously; and with no error flag set
it decodes to `Ok(false)`. -/
theorem C1_status_priority (sr : Sr) : status_decode sr = statusSpec sr := by
  rcases sr with ⟨b, p1, p2, p3, p4, p5⟩
  cases b <;> cases p1 <;> cases p2 <;> cases p3 <;> cases p4 <;> cases p5 <;> rfl

lemma status_fst (s : FlashState) : (status s).1 = status_decode (readSr s).1 := rfl

lemma map_unit_eq_busy {r : Except Error Bool}
    (h : Except.map (fun _ => ()) r = Except.error Error.Busy) :
    r = Except.error Error.Busy := by
  cases r with
  | ok a => simp [Except.map] at h
  | error e => simpa [Except.map] using h

lemma end_erase_lock_of_ne (s : FlashState)
    (h : (end_erase s).1 ≠ Except.error Error.Busy) :
    (end_erase s).2.cr.lock = true := by
  by_cases hb : (status s).1 = Except.ok true
  · exact absurd (by simp [end_erase, hb]) h
  · simp [end_erase, hb, lock, modifyCr]

lemma end_erase_busy_cr (s : FlashState)
    (h : (end_erase s).1 = Except.error Error.Busy) :
    (end_erase s).2.cr = s.cr := by
  by_cases hb : (status s).1 = Except.ok true
  · simp only [end_erase, hb, if_pos]
    exact status_snd_cr s
  · exfalso
    simp only [end_erase, hb, if_neg, not_false_iff] at h
    exact status_decode_ne_busy (readSr s).1 (map_unit_eq_busy h)

lemma complete_operation_lock_of_ne (s : FlashState)
    (h : (complete_operation s).1 ≠ Except.error Error.Busy) :
    (complete_operation s).2.cr.lock = true := by
  by_cases hb : (status s).1 = Except.ok true
  · exact absurd (by simp [complete_operation, hb]) h
  · simp only [complete_operation, hb, if_neg, not_false_iff]
    simp [lock, modifyCr]

lemma complete_operation_busy_cr (s : FlashState)
    (h : (complete_operation s).1 = Except.error Error.Busy) :
    (complete_operation s).2.cr = s.cr := by
  by_cases hb : (status s).1 = Except.ok true
  · simp only [complete_operation, hb, if_pos]
    exact status_snd_cr s
  · exfalso
    simp only [complete_operation, hb, if_neg, not_false_iff] at h
    exact status_decode_ne_busy (readSr s).1 (map_unit_eq_busy h)

/-- C2 counterexample: `end_erase` invoked while the status register still
reports busy and the controller is unlocked returns the error `Busy` with
the lock bit still clear — the claimed "lock bit is set again for every
outcome" fails on the early busy return. -/
theorem C2_counterexample :
    (end_erase { cr := crDefault, keyStage := false, srReads := [busySr],
                 events := [] }).1 = Except.error Error.Busy ∧
    (end_erase { cr := crDefault, keyStage := false, srReads := [busySr],
                 events := [] }).2.cr.lock = false := by
  constructor <;> rfl

/-- C2 (amended): for `end_erase`, `complete_operation` and
`blocking_erase_sector`, the lock bit is set before returning on every
outcome other than the early `Err(Busy)` return taken when the status read
still reports busy; that early return performs no control-register write and
leaves the control register (lock bit included) unchanged. -/
theorem C2_lock_restored (s : FlashState) :
    ((end_erase s).1 ≠ Except.error Error.Busy →
      (end_erase s).2.cr.lock = true) ∧
    ((end_erase s).1 = Except.error Error.Busy →
      (end_erase s).2.cr = s.cr) ∧
    ((complete_operation s).1 ≠ Except.error Error.Busy →
      (complete_operation s).2.cr.lock = true) ∧
    ((complete_operation s).1 = Except.error Error.Busy →
      (complete_operation s).2.cr = s.cr) ∧
    (∀ sector r s', blocking_erase_sector sector s = some (r, s') →
      r ≠ Except.error Error.Busy → s'.cr.lock = true) := by
  refine ⟨end_erase_lock_of_ne s, end_erase_busy_cr s,
    complete_operation_lock_of_ne s, complete_operation_busy_cr s, ?_⟩
  intro sector r s' h hne
  unfold blocking_erase_sector at h
  cases hbe : begin_erase_sector sector s with
  | none => rw [hbe] at h; exact Option.noConfusion h
  | some s₁ =>
    rw [hbe] at h
    have h' : end_erase (blocking_wait_ready s₁).2 = (r, s') := Option.some.inj h
    have h1 : (end_erase (blocking_wait_ready s₁).2).1 = r := by rw [h']
    have h2 : (end_erase (blocking_wait_ready s₁).2).2 = s' := by rw [h']
    rw [← h2]
    exact end_erase_lock_of_ne _ (h1 ▸ hne)

/-- The final state of `blocking_erase_sector` in the C2 witness run. -/
def besRunEnd : FlashState :=
  { cr := { lock := true, pg := false, per := false, pnb := 5, bker := false,
            strt := true },
    keyStage := false,
    srReads := [],
    events := [Event.evModifyCr
                 { lock := false, pg := false, per := true, pnb := 5,
                   bker := false, strt := false },
               Event.evModifyCr
                 { lock := false, pg := false, per := true, pnb := 5,
                   bker := false, strt := true },
               Event.evReadSr idleSr,
               Event.evReadSr idleSr,
               Event.evModifyCr
                 { lock := false, pg := false, per := false, pnb := 5,
                   bker := false, strt := true },
               Event.evModifySr,
               Event.evModifyCr
                 { lock := true, pg := false, per := false, pnb := 5,
                   bker := false, strt := true }] }

/-- C2 witness: the amended lock-restoration property applied at concrete
runs of `end_erase`, `complete_operation` and `blocking_erase_sector`. -/
theorem C2_lock_restored_witness :
    (end_erase { cr := crDefault, keyStage := false, srReads := [idleSr],
                 events := [] }).2.cr.lock = true ∧
    (end_erase { cr := crDefault, keyStage := false, srReads := [busySr],
                 events := [] }).2.cr = crDefault ∧
    (complete_operation { cr := crDefault, keyStage := false,
                          srReads := [idleSr], events := [] }).2.cr.lock = true ∧
    (complete_operation { cr := crDefault, keyStage := false,
                          srReads := [busySr], events := [] }).2.cr = crDefault ∧
    besRunEnd.cr.lock = true :=
  ⟨(C2_lock_restored _).1 (by decide),
   (C2_lock_restored _).2.1 (by decide),
   (C2_lock_restored _).2.2.1 (by decide),
   (C2_lock_restored _).2.2.2.1 (by decide),
   (C2_lock_restored { cr := crDefault, keyStage := false, srReads := [idleSr],
                       events := [] }).2.2.2.2
     ⟨FlashBank.Bank1, 5⟩ (Except.ok ()) besRunEnd (by decide) (by decide)⟩

lemma readSr_cons (s : FlashState) (sr : Sr) (rest : List Sr)
    (h : s.srReads = sr :: rest) :
    readSr s = (sr, { s with srReads := rest,
                             events := s.events ++ [Event.evReadSr sr] }) := by
  unfold readSr
  rw [h]

lemma status_cons (s : FlashState) (sr : Sr) (rest : List Sr)
    (h : s.srReads = sr :: rest) :
    status s = (status_decode sr,
      { s with srReads := rest,
               events := s.events ++ [Event.evReadSr sr] }) := by
  unfold status
  rw [readSr_cons s sr rest h]

/-- C3: `end_erase()` — if the status read reports busy it returns
`Err(Busy)` immediately (no further register access); otherwise it clears
`PER`, then clears the sticky error flags, then re-locks, in that order, and
returns the decoded status (`Ok(())` on no error, the decoded error
otherwise). -/
theorem C3_end_erase (s : FlashState) (sr : Sr) (rest : List Sr)
    (h : s.srReads = sr :: rest) :
    (status_decode sr = Except.ok true →
      end_erase s = (Except.error Error.Busy,
        { s with srReads := rest,
                 events := s.events ++ [Event.evReadSr sr] })) ∧
    (status_decode sr ≠ Except.ok true →
      end_erase s =
        (Except.map (fun _ => ()) (status_decode sr),
         { s with srReads := rest,
                  cr := { s.cr with per := false, lock := true },
                  events := s.events ++
                    [Event.evReadSr sr,
                     Event.evModifyCr { s.cr with per := false },
                     Event.evModifySr,
                     Event.evModifyCr
                       { s.cr with per := false, lock := true }] })) ∧
    (status_decode sr = Except.ok false → (end_erase s).1 = Except.ok ()) ∧
    (∀ e, status_decode sr = Except.error e →
      (end_erase s).1 = Except.error e) := by
  have hst := status_cons s sr rest h
  refine ⟨?_, ?_, ?_, ?_⟩
  · intro hb
    simp [end_erase, hst, hb]
  · intro hb
    simp only [end_erase, hst, if_neg hb, modifyCr, clear_all_err, lock]
    simp [List.append_assoc]
  · intro hok
    have hb : status_decode sr ≠ Except.ok true := by
      rw [hok]; intro hc; exact Bool.noConfusion (Except.ok.inj hc)
    simp [end_erase, hst, if_neg hb, hok, Except.map]
  · intro e herr
    have hb : status_decode sr ≠ Except.ok true := by
      rw [herr]; intro hc; exact Except.noConfusion hc
    simp [end_erase, hst, if_neg hb, herr, Except.map]

/-- C3 witness: `end_erase` at a concrete busy run and a concrete
idle-success run. -/
theorem C3_end_erase_witness :
    end_erase { cr := crDefault, keyStage := false, srReads := [busySr],
                events := [] }
      = (Except.error Error.Busy,
         { cr := crDefault, keyStage := false, srReads := [],
           events := [Event.evReadSr busySr] }) ∧
    end_erase { cr := crDefault, keyStage := false, srReads := [idleSr],
                events := [] }
      = (Except.ok (),
         { cr := { crDefault with lock := true }, keyStage := false,
           srReads := [],
           events := [Event.evReadSr idleSr, Event.evModifyCr crDefault,
                      Event.evModifySr,
                      Event.evModifyCr { crDefault with lock := true }] }) := by
  constructor
  · have h1 := (C3_end_erase
      { cr := crDefault, keyStage := false, srReads := [busySr], events := [] }
      busySr [] rfl).1 (by decide)
    rw [h1]
    decide
  · have h2 := (C3_end_erase
      { cr := crDefault, keyStage := false, srReads := [idleSr], events := [] }
      idleSr [] rfl).2.1 (by decide)
    rw [h2]
    decide

lemma unlock_eq (s : FlashState) :
    unlock s =
      if s.cr.lock then
        { s with cr := { s.cr with lock := false }, keyStage := false,
                 events := s.events ++
                   [Event.evWriteKey KEY1, Event.evWriteKey KEY2] }
      else s := by
  by_cases h : s.cr.lock
  · have hne : (KEY2 = KEY1) = False := by decide
    simp [unlock, writeKey, h, hne, List.append_assoc]
  · simp [unlock, h]

/-- C5: `unlock()` — when the lock bit reads as set it writes exactly the
two key constants `0x4567_0123` then `0xCDEF_89AB`, in that order, to the
key register; when the lock bit reads as clear it performs no register write
(the state is untouched).  Consequently a second `unlock()` in a row
performs no further access: the key sequence is issued only once. -/
theorem C5_unlock (s : FlashState) :
    (unlock s =
      if s.cr.lock then
        { s with cr := { s.cr with lock := false }, keyStage := false,
                 events := s.events ++
                   [Event.evWriteKey KEY1, Event.evWriteKey KEY2] }
      else s) ∧
    (unlock (unlock s)).events = (unlock s).events := by
  refine ⟨unlock_eq s, ?_⟩
  rw [unlock_eq s]
  by_cases h : s.cr.lock
  · rw [if_pos h, unlock_eq]
    simp
  · rw [if_neg h, unlock_eq, if_neg h]

/-- C6: `enable_write()` — the assertion `WRITE_SIZE % 4 == 0` is evaluated
before any register access: when `WRITE_SIZE` is a multiple of 4 the
assertion passes and a single whole-register write setting the
program-enable bit is performed; otherwise the call panics with no register
write having occurred.  `WRITE_SIZE` is a build-time constant defined
outside the available source and is therefore a parameter. -/
theorem C6_enable_write (writeSize : Nat) (s : FlashState) :
    enable_write writeSize s =
      if writeSize % 4 = 0 then
        some { s with cr := { crDefault with pg := true },
                      events := s.events ++
                        [Event.evWriteCr { crDefault with pg := true }] }
      else none := by
  by_cases h : writeSize % 4 = 0 <;> simp [enable_write, writeCr, h]

/-- C7: `complete_operation()` called when the status register reads idle
with no error flags set and the control register has `PG` set: it clears the
sticky error flags, takes the program branch — a whole-register write
clearing `PG` (`disable_write`), not the erase-branch `PER` modify — then
re-locks, and returns `Ok(())`. -/
theorem C7_complete_operation (s : FlashState) (rest : List Sr)
    (hs : s.srReads = idleSr :: rest) (hpg : s.cr.pg = true) :
    complete_operation s =
      (Except.ok (),
       { s with srReads := rest,
                cr := { crDefault with lock := true },
                events := s.events ++
                  [Event.evReadSr idleSr, Event.evModifySr,
                   Event.evWriteCr crDefault,
                   Event.evModifyCr { crDefault with lock := true }] }) := by
  have hst := status_cons s idleSr rest hs
  have hb : status_decode idleSr ≠ Except.ok true := by decide
  have hid : status_decode idleSr = Except.ok false := by decide
  simp only [complete_operation, hst, if_neg hb]
  simp [clear_all_err, disable_write, writeCr, modifyCr, lock, hpg, hid,
    Except.map, crDefault, List.append_assoc]

/-- C7 witness: `complete_operation` at a concrete idle-success state with
`PG` set. -/
theorem C7_complete_operation_witness :
    complete_operation { cr := { crDefault with pg := true }, keyStage := false,
                         srReads := [idleSr], events := [] }
      = (Except.ok (),
         { cr := { crDefault with lock := true }, keyStage := false,
           srReads := [],
           events := [Event.evReadSr idleSr, Event.evModifySr,
                      Event.evWriteCr crDefault,
                      Event.evModifyCr { crDefault with lock := true }] }) := by
  have h := C7_complete_operation
    { cr := { crDefault with pg := true }, keyStage := false,
      srReads := [idleSr], events := [] } [] rfl rfl
  rw [h]
  decide

/-- C9: `begin_erase_sector(sector)` for a sector on `Bank1` or `Bank2` does
not panic (the `unreachable!` branch for the third bank variant is not
taken) and performs exactly two control-register read-modify-writes, in
order: first one setting `PER`, `PNB = sector.index_in_bank` and the bank
selector `BKER` (`false` for `Bank1`, `true` for `Bank2`) together, then a
second, separate one setting `STRT`. -/
theorem C9_begin_erase_sector (sector : FlashSector) (s : FlashState) :
    (sector.bank = FlashBank.Bank1 →
      begin_erase_sector sector s = some
        { s with
          cr := { s.cr with per := true, pnb := sector.index_in_bank,
                            bker := false, strt := true },
          events := s.events ++
            [Event.evModifyCr
               { s.cr with per := true, pnb := sector.index_in_bank,
                           bker := false },
             Event.evModifyCr
               { s.cr with per := true, pnb := sector.index_in_bank,
                           bker := false, strt := true }] }) ∧
    (sector.bank = FlashBank.Bank2 →
      begin_erase_sector sector s = some
        { s with
          cr := { s.cr with per := true, pnb := sector.index_in_bank,
                            bker := true, strt := true },
          events := s.events ++
            [Event.evModifyCr
               { s.cr with per := true, pnb := sector.index_in_bank,
                           bker := true },
             Event.evModifyCr
               { s.cr with per := true, pnb := sector.index_in_bank,
                           bker := true, strt := true }] }) := by
  constructor <;> intro h <;>
    simp [begin_erase_sector, bkerOf, h, modifyCr, List.append_assoc]

/-- C9 witness: concrete erases on each of the two reachable banks. -/
theorem C9_begin_erase_sector_witness :
    begin_erase_sector ⟨FlashBank.Bank1, 3⟩
        { cr := crDefault, keyStage := false, srReads := [], events := [] }
      = some
        { cr := { crDefault with per := true, pnb := 3, strt := true },
          keyStage := false, srReads := [],
          events := [Event.evModifyCr { crDefault with per := true, pnb := 3 },
                     Event.evModifyCr
                       { crDefault with per := true, pnb := 3,
                                          strt := true }] } ∧
    begin_erase_sector ⟨FlashBank.Bank2, 7⟩
        { cr := crDefault, keyStage := false, srReads := [], events := [] }
      = some
        { cr := { crDefault with per := true, pnb := 7, bker := true,
                                  strt := true },
          keyStage := false, srReads := [],
          events := [Event.evModifyCr
                       { crDefault with per := true, pnb := 7, bker := true },
                     Event.evModifyCr
                       { crDefault with per := true, pnb := 7, bker := true,
                                          strt := true }] } := by
  constructor
  · have h := (C9_begin_erase_sector ⟨FlashBank.Bank1, 3⟩
      { cr := crDefault, keyStage := false, srReads := [], events := [] }).1 rfl
    rw [h]
    decide
  · have h := (C9_begin_erase_sector ⟨FlashBank.Bank2, 7⟩
      { cr := crDefault, keyStage := false, srReads := [], events := [] }).2 rfl
    rw [h]
    decide

/-- C10: `enable_write()`/`disable_write()` perform whole-register writes:
beyond `PG`, every other control-register field (`lock`, `PER`, `PNB`,
`BKER`, `STRT`) ends at its register default regardless of its previous
value — unlike `lock()`, `begin_erase_sector()` and `end_erase()`, whose
read-modify-writes leave the fields they do not target unchanged. -/
theorem C10_register_write_frame (s : FlashState) (writeSize : Nat)
    (hws : writeSize % 4 = 0) :
    ((enable_write writeSize s).map FlashState.cr
        = some { crDefault with pg := true }) ∧
    ((disable_write s).cr = crDefault) ∧
    ((lock s).cr = { s.cr with lock := true }) ∧
    (∀ sector s', begin_erase_sector sector s = some s' →
      s'.cr.lock = s.cr.lock ∧ s'.cr.pg = s.cr.pg) ∧
    (∀ r s', end_erase s = (r, s') → r ≠ Except.error Error.Busy →
      s'.cr.pg = s.cr.pg ∧ s'.cr.pnb = s.cr.pnb ∧
        s'.cr.bker = s.cr.bker ∧ s'.cr.strt = s.cr.strt) := by
  refine ⟨by simp [enable_write, hws, writeCr], rfl, rfl, ?_, ?_⟩
  · intro sector s' h
    unfold begin_erase_sector at h
    cases hb : bkerOf sector.bank with
    | none => rw [hb] at h; exact Option.noConfusion h
    | some bk =>
      rw [hb] at h
      have h' := Option.some.inj h
      rw [← h']
      simp [modifyCr]
  · intro r s' h hne
    by_cases hbusy : (status s).1 = Except.ok true
    · exfalso
      apply hne
      have h1 : (end_erase s).1 = Except.error Error.Busy := by
        simp [end_erase, hbusy]
      rw [h] at h1
      exact h1
    · have h3 : (end_erase s).2
          = lock (clear_all_err (modifyCr (status s).2
              (fun w => { w with per := false }))) := by
        simp [end_erase, hbusy]
      rw [h] at h3
      have h2 : s' = lock (clear_all_err (modifyCr (status s).2
          (fun w => { w with per := false }))) := h3
      rw [h2]
      simp [lock, clear_all_err, modifyCr, status_snd_cr]

/-- The state left by `begin_erase_sector` in the C10 witness run. -/
def c10Base : FlashState :=
  { cr := { lock := false, pg := true, per := true, pnb := 9, bker := true,
            strt := true },
    keyStage := false, srReads := [idleSr], events := [] }

/-- The state left by `begin_erase_sector ⟨Bank2, 4⟩` on `c10Base`. -/
def c10BeginEnd : FlashState :=
  { cr := { lock := false, pg := true, per := true, pnb := 4, bker := true,
            strt := true },
    keyStage := false, srReads := [idleSr],
    events := [Event.evModifyCr
                 { lock := false, pg := true, per := true, pnb := 4,
                   bker := true, strt := true },
               Event.evModifyCr
                 { lock := false, pg := true, per := true, pnb := 4,
                   bker := true, strt := true }] }

/-- The state left by `end_erase` on `c10Base`. -/
def c10EraseEnd : FlashState :=
  { cr := { lock := true, pg := true, per := false, pnb := 9, bker := true,
            strt := true },
    keyStage := false, srReads := [],
    events := [Event.evReadSr idleSr,
               Event.evModifyCr
                 { lock := false, pg := true, per := false, pnb := 9,
                   bker := true, strt := true },
               Event.evModifySr,
               Event.evModifyCr
                 { lock := true, pg := true, per := false, pnb := 9,
                   bker := true, strt := true }] }

/-- C10 witness: the frame properties applied at a concrete state with every
control-register field set. -/
theorem C10_register_write_frame_witness :
    (enable_write 8 c10Base).map FlashState.cr
        = some { crDefault with pg := true } ∧
    (disable_write c10Base).cr = crDefault ∧
    (lock c10Base).cr = { c10Base.cr with lock := true } ∧
    (c10BeginEnd.cr.lock = c10Base.cr.lock ∧
      c10BeginEnd.cr.pg = c10Base.cr.pg) ∧
    (c10EraseEnd.cr.pg = c10Base.cr.pg ∧ c10EraseEnd.cr.pnb = c10Base.cr.pnb ∧
      c10EraseEnd.cr.bker = c10Base.cr.bker ∧
      c10EraseEnd.cr.strt = c10Base.cr.strt) :=
  ⟨(C10_register_write_frame c10Base 8 (by decide)).1,
   (C10_register_write_frame c10Base 8 (by decide)).2.1,
   (C10_register_write_frame c10Base 8 (by decide)).2.2.1,
   (C10_register_write_frame c10Base 8 (by decide)).2.2.2.1
     ⟨FlashBank.Bank2, 4⟩ c10BeginEnd (by decide),
   (C10_register_write_frame c10Base 8 (by decide)).2.2.2.2
     (Except.ok ()) c10EraseEnd (by decide) (by decide)⟩

lemma wordWriteEvents_cons (addr w : Nat) (ws : List Nat)
    (ha : addr < 4294967296) :
    wordWriteEvents addr (w :: ws) =
      Event.evMemWrite addr w :: Event.evFence ::
        wordWriteEvents ((addr + 4) % 4294967296) ws := by
  unfold wordWriteEvents
  rw [List.length_cons, List.range_succ_eq_map, List.flatMap_cons,
    List.flatMap_map]
  simp only [Nat.mul_zero, Nat.add_zero, Nat.mod_eq_of_lt ha,
    List.getD_cons_zero, List.cons_append, List.nil_append]
  refine congrArg _ (congrArg _ (List.flatMap_congr ?_))
  intro i _
  simp only [Function.comp_apply, List.getD_cons_succ]
  have hmod : (addr + 4 * (i + 1)) % 4294967296
      = ((addr + 4) % 4294967296 + 4 * i) % 4294967296 := by omega
  rw [hmod]

lemma writeLoop_some (addr : Nat) (bytes : List Nat) :
    addr < 4294967296 → bytes.length % 4 = 0 →
    writeLoop addr bytes = some (wordWriteEvents addr (leWords bytes)) := by
  induction addr, bytes using writeLoop.induct with
  | case1 a =>
    intro _ _
    simp [writeLoop, leWords, wordWriteEvents]
  | case2 a b0 b1 b2 b3 rest ih =>
    intro ha hb
    have ha' : (a + 4) % 4294967296 < 4294967296 := Nat.mod_lt _ (by omega)
    have hb' : rest.length % 4 = 0 := by
      simp only [List.length_cons] at hb
      omega
    rw [writeLoop, ih ha' hb', leWords]
    simp only [Option.map]
    rw [wordWriteEvents_cons a (u32_from_le_bytes b0 b1 b2 b3) (leWords rest) ha]
  | case3 a hd tl hne =>
    intro _ hb
    exfalso
    match tl, hne with
    | [], _ => simp at hb
    | [t1], _ => simp at hb
    | [t1, t2], _ => simp at hb
    | t1 :: t2 :: t3 :: r, hne => exact hne t1 t2 t3 r rfl

/-- C4: `write(start_address, buf)` writes the buffer as successive
little-endian 32-bit words, the `i`-th word at address
`start_address + 4 * i` (u32 arithmetic), with a sequentially-consistent
fence emitted after each word write before the next one begins, and returns
`Ok(())`.  Stated for every buffer whose length is a multiple of 4, which by
the spec's invariant includes every `WRITE_SIZE`-byte buffer. -/
theorem C4_write (start_address : Nat) (buf : List Nat) (s : FlashState)
    (h4 : buf.length % 4 = 0) (hlt : start_address < 4294967296) :
    write start_address buf s =
      some (Except.ok (),
        { s with events := s.events ++
            wordWriteEvents start_address (leWords buf) }) := by
  unfold write
  rw [writeLoop_some start_address buf hlt h4]
  rfl

/-- C4 witness: an 8-byte programming run from address 0. -/
theorem C4_write_witness :
    write 0 [1, 2, 3, 4, 5, 6, 7, 8]
        { cr := crDefault, keyStage := false, srReads := [], events := [] }
      = some (Except.ok (),
        { cr := crDefault, keyStage := false, srReads := [],
          events := [Event.evMemWrite 0 67305985, Event.evFence,
                     Event.evMemWrite 4 134678021, Event.evFence] }) := by
  have h := C4_write 0 [1, 2, 3, 4, 5, 6, 7, 8]
    { cr := crDefault, keyStage := false, srReads := [], events := [] }
    (by decide) (by decide)
  rw [h]
  decide

lemma countReads_map_read (l : List Sr) :
    countReads (l.map Event.evReadSr) = l.length := by
  unfold countReads
  induction l with
  | nil => rfl
  | cons a t ih =>
    simp only [List.map_cons, List.filter_cons, isSrRead, if_true,
      List.length_cons]
    rw [ih]

lemma countReads_wordWriteEvents (addr : Nat) (ws : List Nat) :
    countReads (wordWriteEvents addr ws) = 0 := by
  unfold wordWriteEvents
  generalize List.range ws.length = l
  induction l with
  | nil => rfl
  | cons a t ih =>
    rw [List.flatMap_cons, countReads_append, ih]
    rfl

lemma bwrGo_run (bs : List Sr) : ∀ s : FlashState, (∀ b ∈ bs, b.bsy = true) →
    bwrGo (bs ++ [idleSr]) s =
      (Except.ok (),
       { s with srReads := [],
                events := s.events ++ (bs ++ [idleSr]).map Event.evReadSr }) := by
  induction bs with
  | nil =>
    intro s _
    simp [bwrGo, status_decode, idleSr]
  | cons b bs ih =>
    intro s hb
    have hdec := status_decode_busy b (hb b (List.mem_cons_self b bs))
    simp only [List.cons_append, bwrGo, hdec, List.append_eq]
    rw [ih _ (fun x hx => hb x (List.mem_cons_of_mem b hx))]
    simp [List.append_assoc]

/-- C8: `blocking_write(start_address, buf)` on a controller whose status
register reports busy for the first `N` reads and then idle with no errors
returns `Ok(())` after exactly `N + 1` status-register reads (one read per
iteration of the `blocking_wait_ready` loop: `N` busy iterations plus the
final not-busy read). -/
theorem C8_blocking_write (N : Nat) (start_address : Nat) (buf : List Nat)
    (s : FlashState) (bs : List Sr)
    (hbuf : buf.length % 4 = 0) (hlt : start_address < 4294967296)
    (hs : s.srReads = bs ++ [idleSr]) (hN : bs.length = N)
    (hbusy : ∀ b ∈ bs, b.bsy = true) :
    (blocking_write start_address buf s).map (fun p => p.1)
        = some (Except.ok ()) ∧
    (blocking_write start_address buf s).map (fun p => countReads p.2.events)
        = some (countReads s.events + (N + 1)) := by
  unfold blocking_write write
  rw [writeLoop_some start_address buf hlt hbuf]
  simp only [Option.map]
  unfold blocking_wait_ready
  have hsW : (FlashState.mk s.cr s.keyStage s.srReads
      (s.events ++ wordWriteEvents start_address (leWords buf))).srReads
      = bs ++ [idleSr] := hs
  rw [show ({ s with events := s.events ++
        wordWriteEvents start_address (leWords buf) } : FlashState).srReads
      = bs ++ [idleSr] from hs]
  rw [bwrGo_run bs _ hbusy]
  refine ⟨rfl, ?_⟩
  simp only [Option.map]
  rw [countReads_append, countReads_append, countReads_wordWriteEvents,
    countReads_map_read, List.length_append, List.length_singleton, hN,
    Nat.add_zero]

/-- C8 witness: a run with `N = 2` busy polls before idle performs exactly 3
status reads. -/
theorem C8_blocking_write_witness :
    (blocking_write 0 [0, 0, 0, 0]
        { cr := crDefault, keyStage := false,
          srReads := [busySr, busySr, idleSr], events := [] }).map
        (fun p => p.1)
      = some (Except.ok ()) ∧
    (blocking_write 0 [0, 0, 0, 0]
        { cr := crDefault, keyStage := false,
          srReads := [busySr, busySr, idleSr], events := [] }).map
        (fun p => countReads p.2.events)
      = some 3 := by
  have h := C8_blocking_write 2 0 [0, 0, 0, 0]
    { cr := crDefault, keyStage := false,
      srReads := [busySr, busySr, idleSr], events := [] }
    [busySr, busySr] (by decide) (by decide) rfl rfl (by decide)
  refine ⟨h.1, ?_⟩
  rw [h.2]
  rfl

end FlashU5
